import Mathlib

/-!
Verification development for the Mastodon profile scanner
(`mastodon-profile-scanner.py`).

The Python source is shallowly embedded below:

* `monitor_rate_limit` — the rate-limit advisory check (lines 12-24);
  the Python expression `remaining / limit` raises `ZeroDivisionError`
  when `limit = 0`, which is embedded as `Except.error`.
* `classifyType` — the post classification expression (line 330).
* `process_post` — the per-post enrichment branch of `get_all_posts`
  (lines 419-450): reblog capture, favorite resolution with placeholder
  fallback, content normalization.  HTML cleaning (`clean_content`) and
  the remote `mastodon.status` lookup are external collaborators and are
  passed in as function parameters.
* `postsRunAux` / `postsRun` — the pagination/error skeleton of
  `get_all_posts` (lines 299-469): max-id cursoring, duplicate
  filtering, rate-limit backoff, and the exception behaviour of the
  loop (only `MastodonRatelimitError` is caught there).
* `ffRunAux` / `ffRun` — the pagination/error skeleton of
  `get_followers_or_following_direct` (lines 100-176): link-header
  cursoring, duplicate filtering, HTTP-429 backoff, break on any other
  request failure, early stop at the expected total.
* `posts_journal` — the incremental posts persistence loop of
  `get_profile_info` (lines 594-611).
* `media_filename` — the deterministic media file naming of
  `get_profile_info` (lines 554-562), with `os.path.splitext` modelled
  by `splitext_ext`.
-/

/-! ## Character-list string helpers (Python `in`, `split`, slicing) -/

/-- Python `pat in hay` on strings: substring containment, checked on the
underlying character lists. -/
def chSub (needle : List Char) : List Char → Bool
  | [] => needle.isPrefixOf ([] : List Char)
  | c :: rest => needle.isPrefixOf (c :: rest) || chSub needle rest

/-- Substring containment on `String`, as Python `pat in hay`. -/
def strContains (hay pat : String) : Bool :=
  chSub pat.data hay.data

/-- Suffix test on `String` (used to state the spec's wording that a URL
"ends in" a literal segment, as opposed to the code's containment test). -/
def strEndsWith (hay pat : String) : Bool :=
  pat.data.reverse.isPrefixOf hay.data.reverse

/-- Python `s.split('/')` on the character list of a string. -/
def splitSlash : List Char → List (List Char)
  | [] => [[]]
  | c :: rest =>
    match splitSlash rest with
    | [] => [[]]
    | cur :: others => if c = '/' then [] :: cur :: others else (c :: cur) :: others

/-- Last element of a list, Python `l[-1]` as an `Option`. -/
def lastElem? : List Nat → Option Nat
  | [] => none
  | [x] => some x
  | _ :: y :: rest => lastElem? (y :: rest)

/-! ## RateLimitMonitor (`monitor_rate_limit`, lines 12-24) -/

/-- The fields of the `mastodon` client object read by
`monitor_rate_limit`.  `ratelimit_remaining` and `ratelimit_limit` may be
unknown (`None` in Python). -/
structure MastodonRateState where
  ratelimit_remaining : Option ℤ
  ratelimit_limit : Option ℤ
  ratelimit_reset : ℚ
deriving DecidableEq

/-- The advisory returned when quota is critically low; the Python code
formats these three values into a warning string. -/
structure Advisory where
  remaining : ℤ
  limit : ℤ
  reset_in : ℚ
deriving DecidableEq

/-- `monitor_rate_limit` (lines 12-24).  Python computes
`ratio = remaining / limit` with no zero guard whenever both values are
non-null; `limit = 0` raises `ZeroDivisionError`, embedded here as
`Except.error ()`.  `now` stands for `time.time()`. -/
def monitor_rate_limit (m : MastodonRateState) (now : ℚ) : Except Unit (Option Advisory) :=
  match m.ratelimit_remaining, m.ratelimit_limit with
  | some remaining, some limit =>
    if limit = 0 then .error ()
    else
      let ratio : ℚ := (remaining : ℚ) / (limit : ℚ)
      if ratio < 1 / 10 then
        let reset_time := m.ratelimit_reset - now
        if 0 < reset_time then .ok (some ⟨remaining, limit, reset_time⟩)
        else .ok none
      else .ok none
  | _, _ => .ok none

/-! ## Post data model and classification (line 330) -/

/-- A media attachment as used by the filename construction. -/
structure Media where
  id : Nat
  type : String
  url : String
deriving DecidableEq

/-- A remote status: the reblog payload carried by a post, or the original
status fetched while resolving a favorite.  Account fields are flattened. -/
structure Status where
  id : Nat
  username : String
  display_name : String
  account_url : String
  created_at : String
  content : String
  media_attachments : List Media
deriving DecidableEq

/-- The fields of a raw post that classification and cross-reference
resolution read: id, HTML body, canonical URL, optional reblog payload. -/
structure RawPost where
  id : Nat
  content : String
  url : String
  reblog : Option Status
deriving DecidableEq

/-- Normalized content, the result shape of `clean_content`. -/
structure Content where
  text : String
  hashtags : List String
  mentions : List String
  urls : List String
deriving DecidableEq

/-- The classification expression at line 330:
`"reblog" if hasattr(post, 'reblog') and post.reblog else "favorite" if
not post.content and "/activity" in post.url else "original"`.
Note the Python test is substring containment, not a suffix test. -/
def classifyType (p : RawPost) : String :=
  if p.reblog.isSome then "reblog"
  else if p.content == "" && strContains p.url "/activity" then "favorite"
  else "original"

/-- The reduced original-post record captured for a reblog (lines 422-431). -/
structure RebloggedFrom where
  id : Nat
  username : String
  display_name : String
  account_url : String
  created_at : String
  media_attachments : List Media
deriving DecidableEq

/-- The reduced original-status record captured for a favorite (lines 438-446). -/
structure FavoritedStatus where
  id : Nat
  username : String
  display_name : String
  account_url : String
  created_at : String
deriving DecidableEq

/-- The classification/content/cross-reference fields of the persisted
post record (missing dict keys become `none`, as in lines 589-590). -/
structure PostRecord where
  id : Nat
  type : String
  url : String
  content : Content
  reblogged_from : Option RebloggedFrom
  favorited_status : Option FavoritedStatus
deriving DecidableEq

/-- `status_id = post.url.split('/')[-2]` (line 434); Python raises
`IndexError` (caught by the surrounding `except`) when the split has
fewer than two parts, embedded as `none`. -/
def parse_favorite_source_id (url : String) : Option String :=
  match (splitSlash url.data).reverse with
  | _ :: second :: _ => some (String.mk second)
  | _ => none

/-- The fallback content written by line 448:
`{"text": "Action non disponible", "hashtags": [], "mentions": [], "urls": []}`. -/
def placeholder_content : Content :=
  { text := "Action non disponible", hashtags := [], mentions := [], urls := [] }

/-- The content/cross-reference enrichment of one post (lines 419-450).
`clean` stands for the external `clean_content`; `resolve` stands for the
remote `mastodon.status` lookup, returning `none` on any failure (deleted
original, permission error).  When `p.reblog` is `some _`, line 330 makes
the classification `"reblog"`, so the Python guard
`post_dict["type"] == "reblog" and post.reblog` holds exactly then. -/
def process_post (clean : String → Content) (resolve : String → Option Status)
    (p : RawPost) : PostRecord :=
  let ty := classifyType p
  match p.reblog with
  | some rb =>
    { id := p.id, type := ty, url := p.url, content := clean rb.content,
      reblogged_from := some
        { id := rb.id, username := rb.username, display_name := rb.display_name,
          account_url := rb.account_url, created_at := rb.created_at,
          media_attachments := rb.media_attachments },
      favorited_status := none }
  | none =>
    if ty = "favorite" then
      match parse_favorite_source_id p.url with
      | some sid =>
        match resolve sid with
        | some orig =>
          { id := p.id, type := ty, url := p.url, content := clean orig.content,
            reblogged_from := none,
            favorited_status := some
              { id := orig.id, username := orig.username,
                display_name := orig.display_name, account_url := orig.account_url,
                created_at := orig.created_at } }
        | none =>
          { id := p.id, type := ty, url := p.url, content := placeholder_content,
            reblogged_from := none, favorited_status := none }
      | none =>
        { id := p.id, type := ty, url := p.url, content := placeholder_content,
          reblogged_from := none, favorited_status := none }
    else
      { id := p.id, type := ty, url := p.url, content := clean p.content,
        reblogged_from := none, favorited_status := none }

/-! ## Media filenames (lines 554-562) -/

/-- Extension from the last dot of a (basename) character list, dots at
the very front not counting, as in `os.path.splitext`. -/
def extFromLastDot (cs : List Char) : String :=
  let rev := cs.reverse
  let afterDot := rev.takeWhile (· ≠ '.')
  if afterDot.length = rev.length then "" else String.mk ('.' :: afterDot.reverse)

/-- The extension component of `os.path.splitext(p)[1]` (line 557). -/
def splitext_ext (p : String) : String :=
  let base := (splitSlash p.data).getLastD []
  let lead := base.takeWhile (· = '.')
  extFromLastDot (base.drop lead.length)

/-- The local media filename built at lines 556-562:
`f"{post_id}_{media['id']}{file_ext}"`, where `post_id` is the original
post's id when the record carries a `reblogged_from` payload, and the
extension defaults to `.jpg` / `.mp4` when the URL has none. -/
def media_filename (status : PostRecord) (media : Media) : String :=
  let ext0 := splitext_ext media.url
  let ext := if ext0 = "" then (if media.type = "image" then ".jpg" else ".mp4") else ext0
  let post_id := match status.reblogged_from with
    | some r => r.id
    | none => status.id
  toString post_id ++ "_" ++ toString media.id ++ ext

/-! ## IncrementalJournal for posts (lines 594-611) -/

/-- Python `status_list[-batch_size:]`: the last `B` elements. -/
def lastBatch (B : Nat) (l : List Nat) : List Nat :=
  l.drop (l.length - B)

/-- One intermediate save of the posts file (lines 596-609).
`statusList` is the in-memory list at flush time, `i` the index of the
record just produced, `file` the on-disk posts file (`none` when absent).
For `i = 0` the file is written outright; otherwise the existing file is
read (absent treated as the whole list) and the last `B` in-memory
records are appended. -/
def posts_flush (statusList : List Nat) (i B : Nat) (file : Option (List Nat)) : List Nat :=
  if i = 0 then statusList
  else
    match file with
    | none => statusList
    | some existing => existing ++ lastBatch B statusList

/-- The whole journaling loop over `records` with batch size `B`
(lines 545, 594-611): after record `i`, flush when `(i+1) % B = 0` or
`i` is the last index.  Returns the final on-disk posts file. -/
def posts_journal (B : Nat) (records : List Nat) : Option (List Nat) :=
  (List.range records.length).foldl
    (fun file i =>
      if (i + 1) % B = 0 ∨ i = records.length - 1 then
        some (posts_flush (records.take (i + 1)) i B file)
      else file)
    none

/-! ## PaginatedCollector: posts loop skeleton (`get_all_posts`, lines 299-469) -/

/-- Outcome of one `mastodon.account_statuses` call as observed by the
loop: a page, a `MastodonRatelimitError` with its `reset_in`, or any
other raised error (`get_all_posts` catches only the rate-limit error). -/
inductive FetchR where
  | ok (batch : List Nat)
  | rateLimited (resetIn : Nat)
  | transportError
deriving DecidableEq

/-- Result of running the posts loop: a normal return with the collected
ids and the sequence of rate-limit waits, a propagated exception
(`errored`), or exhaustion of the step budget (`fuelOut`, a model
artifact standing for a still-running loop). -/
inductive RunRes where
  | ok (items : List Nat) (waits : List Nat)
  | errored
  | fuelOut
deriving DecidableEq

/-- Loop state of `get_all_posts`: the `max_id` cursor, the collected
ids, the rate-limit sleeps performed so far, and the number of fetch
calls already made (used to index the fetch schedule). -/
structure PState where
  maxId : Option Nat
  acc : List Nat
  waits : List Nat
  calls : Nat
deriving DecidableEq

/-- `max_id = batch[-1].id` (line 317): the cursor passed to the next
request is the last id of the current page. -/
def nextMaxId (batch : List Nat) : Option Nat :=
  lastElem? batch

/-- The `while True` loop of `get_all_posts` (lines 299-467), with the
fetch abstracted as a schedule `fetch calls maxId`.  Per iteration:
fetch; break on an empty page; set `max_id` to the last id of the page;
drop ids already collected; break when nothing new remains; otherwise
append and continue.  A `MastodonRatelimitError` sleeps `reset_in` and
retries at the same cursor; any other raised error propagates out of the
loop, so the items collected so far are lost. -/
def postsRunAux (fetch : Nat → Option Nat → FetchR) : Nat → PState → RunRes
  | 0, _ => .fuelOut
  | fuel + 1, s =>
    match fetch s.calls s.maxId with
    | .transportError => .errored
    | .rateLimited d =>
      postsRunAux fetch fuel ⟨s.maxId, s.acc, s.waits ++ [d], s.calls + 1⟩
    | .ok batch =>
      if batch = [] then .ok s.acc s.waits
      else
        let newItems := batch.filter (fun x => !(s.acc.contains x))
        if newItems = [] then .ok s.acc s.waits
        else postsRunAux fetch fuel ⟨nextMaxId batch, s.acc ++ newItems, s.waits, s.calls + 1⟩

/-- `get_all_posts` from the initial state (no cursor, nothing collected). -/
def postsRun (fetch : Nat → Option Nat → FetchR) (fuel : Nat) : RunRes :=
  postsRunAux fetch fuel ⟨none, [], [], 0⟩

/-- What remains to be served under a `max_id` cursor: everything for no
cursor, else the ids strictly below the cursor. -/
def pendingOf (u : List Nat) : Option Nat → List Nat
  | none => u
  | some c => u.filter (fun x => decide (x < c))

/-- A synthetic max-id page source over a fixed id universe `u` (newest
first): each call returns the first `P` still-pending ids. -/
def serveMaxId (u : List Nat) (P : Nat) : Nat → Option Nat → FetchR :=
  fun _ cursor => .ok ((pendingOf u cursor).take P)

/-! ## PaginatedCollector: followers/following loop skeleton
(`get_followers_or_following_direct`, lines 100-176) -/

/-- Outcome of one `requests.get` in the followers/following loop: a JSON
page together with the optional next-page cursor from the `Link` header,
or a request failure carrying the HTTP status code and the `Retry-After`
header value. -/
inductive FFetchR where
  | ok (batch : List Nat) (next : Option Nat)
  | httpErr (status : Nat) (retryAfter : Nat)
deriving DecidableEq

/-- Loop state of `get_followers_or_following_direct`: the pagination
params from the last `Link` header (`none` initially), the collected ids,
the backoff sleeps, and the number of requests made. -/
structure FState where
  cursor : Option Nat
  acc : List Nat
  waits : List Nat
  calls : Nat
deriving DecidableEq

/-- The `while True` loop of `get_followers_or_following_direct`
(lines 115-175).  Per iteration: request; break on empty page; drop ids
already collected; break when nothing new; append; break when the `Link`
header has no next page; break when the expected total is reached;
otherwise continue from the link's params.  A failed request sleeps
`Retry-After` and retries at the same params when the status is 429 and
breaks (returning the partial list) otherwise.  `none` is fuel
exhaustion, a model artifact. -/
def ffRunAux (fetch : Nat → Option Nat → FFetchR) (expectedTotal : Nat) :
    Nat → FState → Option (List Nat × List Nat)
  | 0, _ => none
  | fuel + 1, s =>
    match fetch s.calls s.cursor with
    | .httpErr status retryAfter =>
      if status = 429 then
        ffRunAux fetch expectedTotal fuel ⟨s.cursor, s.acc, s.waits ++ [retryAfter], s.calls + 1⟩
      else some (s.acc, s.waits)
    | .ok batch next =>
      if batch = [] then some (s.acc, s.waits)
      else
        let newItems := batch.filter (fun x => !(s.acc.contains x))
        if newItems = [] then some (s.acc, s.waits)
        else
          let acc' := s.acc ++ newItems
          match next with
          | none => some (acc', s.waits)
          | some c =>
            if expectedTotal ≤ acc'.length then some (acc', s.waits)
            else ffRunAux fetch expectedTotal fuel ⟨some c, acc', s.waits, s.calls + 1⟩

/-- `get_followers_or_following_direct` from its initial state. -/
def ffRun (fetch : Nat → Option Nat → FFetchR) (expectedTotal fuel : Nat) :
    Option (List Nat × List Nat) :=
  ffRunAux fetch expectedTotal fuel ⟨none, [], [], 0⟩

/-- A synthetic link-header page source over a fixed id universe `u`:
the cursor is the offset of the next page, the `Link` header is present
exactly while more items remain. -/
def ffServe (u : List Nat) (P : Nat) : Nat → Option Nat → FFetchR :=
  fun _ cursor =>
    let off := cursor.getD 0
    .ok ((u.drop off).take P) (if off + P < u.length then some (off + P) else none)

/-- Fetch schedule refuting C3 for the posts loop: one good page, then a
non-rate-limit transport error. -/
def c3fetch : Nat → Option Nat → FetchR :=
  fun k _ => if k = 0 then .ok [5, 4] else .transportError

/-- Fetch schedule for C8: rate-limited with reset delay `D` on the first
call, a page on the second, exhausted afterwards. -/
def c8fetch (D : Nat) (page : List Nat) : Nat → Option Nat → FetchR :=
  fun k _ => if k = 0 then .rateLimited D else if k = 1 then .ok page else .ok []

/-! ## Concrete instances used by counterexamples and witnesses -/

/-- A content normalizer instance: keeps the raw text, extracts nothing. -/
def clean0 : String → Content := fun s => ⟨s, [], [], []⟩

/-- A status resolver that fails on every id (deleted original /
permission error on the remote side). -/
def resolve0 : String → Option Status := fun _ => none

/-- A raw post that line 330 classifies as `favorite` (empty body, URL
ending in `/activity`). -/
def pFavFail : RawPost := ⟨88, "", "https://ex.tld/101/activity", none⟩

/-! ## Helper lemmas about the classification -/

lemma classify_reblog_iff (p : RawPost) :
    classifyType p = "reblog" ↔ p.reblog.isSome = true := by
  unfold classifyType
  cases h : p.reblog.isSome
  · cases hc : p.content == "" && strContains p.url "/activity" <;> simp [hc]
  · simp

lemma classify_fav_iff (p : RawPost) :
    classifyType p = "favorite" ↔
      (p.reblog.isSome = false ∧ (p.content == "" && strContains p.url "/activity") = true) := by
  unfold classifyType
  cases h : p.reblog.isSome
  · cases hc : p.content == "" && strContains p.url "/activity" <;> simp [hc]
  · simp

lemma classify_orig_iff (p : RawPost) :
    classifyType p = "original" ↔
      (p.reblog.isSome = false ∧ (p.content == "" && strContains p.url "/activity") = false) := by
  unfold classifyType
  cases h : p.reblog.isSome
  · cases hc : p.content == "" && strContains p.url "/activity" <;> simp [hc]
  · simp

/-! ## C1 — incremental posts journal -/

/-- C1 (code_bug evidence): running the journal with batch size `B = 2`
over the `N = 3` records `[10, 20, 30]` leaves the posts file holding
`[10, 20, 20, 30]` — the final flush re-appends the last `B` in-memory
records (`status_list[-batch_size:]`, line 605) although the final batch
holds a single new record, so record `20` is persisted twice, against the
claim (and against the code's own comment at line 604).  With `B = 5` and
`N = 15` (the spec's own journal-merge test, `B ∣ N`) the file is exact. -/
theorem posts_journal_duplicates_on_partial_final_batch :
    posts_journal 2 [10, 20, 30] = some [10, 20, 20, 30]
    ∧ posts_journal 2 [10, 20, 30] ≠ some [10, 20, 30]
    ∧ posts_journal 5 (List.range 15) = some (List.range 15) := by
  refine ⟨by decide, by decide, by decide⟩

/-! ## C2 — classification rule -/

/-- C2 (counterexample): a post with empty body whose URL merely contains
`/activity` without ending in it is still classified `favorite` by
line 330, because the code tests substring containment
(`"/activity" in post.url`), not the suffix stated by the claim. -/
theorem classify_contains_not_suffix_cex :
    classifyType ⟨77, "", "https://ex.tld/activity/9", none⟩ = "favorite"
    ∧ strEndsWith "https://ex.tld/activity/9" "/activity" = false := by
  refine ⟨by decide, by decide⟩

/-- C2 (amended): classification follows exactly this rule: `reblog` iff
the post carries a non-null reblog payload; otherwise `favorite` iff the
body is empty AND the URL contains the literal substring `/activity`
(not necessarily as a final segment); otherwise `original`. -/
theorem classify_rule_amended (p : RawPost) :
    (classifyType p = "reblog" ↔ p.reblog.isSome = true)
    ∧ (classifyType p = "favorite" ↔
        (p.reblog = none ∧ p.content = "" ∧ strContains p.url "/activity" = true))
    ∧ (classifyType p = "original" ↔
        (p.reblog = none ∧ ¬(p.content = "" ∧ strContains p.url "/activity" = true))) := by
  refine ⟨classify_reblog_iff p, ?_, ?_⟩
  · rw [classify_fav_iff]
    cases hr : p.reblog <;> cases hc : strContains p.url "/activity" <;>
      simp [hc, Bool.and_eq_true, beq_iff_eq]
  · rw [classify_orig_iff]
    cases hr : p.reblog <;> cases hc : strContains p.url "/activity" <;>
      simp [hc, Bool.and_eq_true, beq_iff_eq]

/-! ## C9 — media filename determinism -/

/-- C9: the local media filename is `{originalPostId}_{mediaId}{ext}`;
for reblogged media the original post's id is used, so two distinct
persisted reblog records wrapping originals with the same id produce the
identical filename for the same attachment. -/
theorem media_filename_deterministic (s1 s2 : PostRecord) (m : Media)
    (r1 r2 : RebloggedFrom)
    (h1 : s1.reblogged_from = some r1) (h2 : s2.reblogged_from = some r2)
    (hid : r1.id = r2.id) :
    media_filename s1 m = media_filename s2 m := by
  simp [media_filename, h1, h2, hid]

/-- C9 witness: two reblog records by different wrapper posts (ids 1
and 2, distinct URLs) around the same original post 500 name the same
file for media 9. -/
theorem media_filename_deterministic_witness :
    media_filename
        ⟨1, "reblog", "https://a.ex/u1/1", placeholder_content,
          some ⟨500, "orig", "Orig", "https://o.ex/orig", "2024", []⟩, none⟩
        ⟨9, "image", "https://files.ex/m/pic.png"⟩
      = media_filename
        ⟨2, "reblog", "https://b.ex/u2/2", placeholder_content,
          some ⟨500, "orig", "Orig", "https://o.ex/orig", "2024", []⟩, none⟩
        ⟨9, "image", "https://files.ex/m/pic.png"⟩ :=
  media_filename_deterministic _ _ _ _ _ rfl rfl rfl

/-! ## C10 — rate-limit check zero guard -/

/-- C10: `monitor_rate_limit` divides `remaining / limit` without a zero
guard whenever both are non-null; with `limit = 0` and non-null
`remaining` it fails on the division (Python `ZeroDivisionError`) instead
of returning, and it returns an optional advisory without error whenever
the known limit is non-zero. -/
theorem monitor_rate_limit_zero_division (r : ℤ) (reset now : ℚ) :
    monitor_rate_limit ⟨some r, some 0, reset⟩ now = .error ()
    ∧ ∀ (m : MastodonRateState),
        (∀ l : ℤ, m.ratelimit_limit = some l → l ≠ 0) →
        ∃ o, monitor_rate_limit m now = .ok o := by
  constructor
  · rfl
  · intro m h
    unfold monitor_rate_limit
    rcases hr : m.ratelimit_remaining with _ | rem <;>
      rcases hl : m.ratelimit_limit with _ | lim
    · exact ⟨none, rfl⟩
    · exact ⟨none, rfl⟩
    · exact ⟨none, rfl⟩
    · dsimp only
      rw [if_neg (h lim hl)]
      by_cases hq : (rem : ℚ) / (lim : ℚ) < 1 / 10
      · rw [if_pos hq]
        by_cases ht : 0 < m.ratelimit_reset - now
        · exact ⟨some ⟨rem, lim, m.ratelimit_reset - now⟩, by rw [if_pos ht]⟩
        · exact ⟨none, by rw [if_neg ht]⟩
      · exact ⟨none, by rw [if_neg hq]⟩

/-- C10 witness: at `limit = 0` the check fails; at `limit = 300` it
returns without error. -/
theorem monitor_rate_limit_zero_division_witness :
    monitor_rate_limit ⟨some 5, some 0, 3⟩ 1 = .error ()
    ∧ (∀ l : ℤ, (⟨some 1, some 300, 50⟩ : MastodonRateState).ratelimit_limit = some l → l ≠ 0)
    ∧ ∃ o, monitor_rate_limit ⟨some 1, some 300, 50⟩ 1 = .ok o := by
  have h := monitor_rate_limit_zero_division 5 3 1
  have hnz : ∀ l : ℤ, (⟨some 1, some 300, 50⟩ : MastodonRateState).ratelimit_limit = some l → l ≠ 0 := by
    intro l hl
    simp only [Option.some.injEq] at hl
    omega
  exact ⟨h.1, hnz, (monitor_rate_limit_zero_division 5 3 1).2 ⟨some 1, some 300, 50⟩ hnz⟩

/-! ## C5 — cross-reference population invariant -/

/-- C5 (counterexample): a post classified `favorite` whose original
status cannot be resolved is persisted with `favorited_status` null (the
`except` at line 447 sets only the placeholder content, lines 589-590
then default the missing key to null), so no cross-reference field is
populated although the classification is `favorite`. -/
theorem crossref_favorite_failure_cex :
    (process_post clean0 resolve0 pFavFail).type = "favorite"
    ∧ (process_post clean0 resolve0 pFavFail).reblogged_from = none
    ∧ (process_post clean0 resolve0 pFavFail).favorited_status = none := by
  refine ⟨by decide, by decide, by decide⟩

/-- C5 (amended): `reblogged_from` is populated exactly for records
classified `reblog`; `favorited_status` is populated only for records
classified `favorite` (and is null for a favorite whose original could
not be resolved); the two are never populated together; a record
classified `original` has both null. -/
theorem crossref_population_amended (clean : String → Content)
    (resolve : String → Option Status) (p : RawPost) :
    ((process_post clean resolve p).reblogged_from.isSome = true
      ↔ (process_post clean resolve p).type = "reblog")
    ∧ ((process_post clean resolve p).favorited_status.isSome = true
      → (process_post clean resolve p).type = "favorite")
    ∧ ¬((process_post clean resolve p).reblogged_from.isSome = true
        ∧ (process_post clean resolve p).favorited_status.isSome = true)
    ∧ ((process_post clean resolve p).type = "original"
      → (process_post clean resolve p).reblogged_from = none
        ∧ (process_post clean resolve p).favorited_status = none) := by
  have hre := classify_reblog_iff p
  unfold process_post
  rcases hr : p.reblog with _ | rb
  · have hnr : classifyType p ≠ "reblog" := by
      intro h
      rw [hre, hr] at h
      simp at h
    dsimp only
    by_cases hf : classifyType p = "favorite"
    · have hno : classifyType p ≠ "original" := by rw [hf]; decide
      rw [if_pos hf]
      rcases hp : parse_favorite_source_id p.url with _ | sid
      · exact ⟨by simp [hnr], by simp, by simp, by simp⟩
      · rcases hs : resolve sid with _ | orig
        · exact ⟨by simp [hs, hnr], by simp [hs], by simp [hs], by simp [hs]⟩
        · exact ⟨by simp [hs, hnr], by simp [hs, hf], by simp [hs], by simp [hs, hno]⟩
    · rw [if_neg hf]
      exact ⟨by simp [hnr], by simp, by simp, by simp⟩
  · have hty : classifyType p = "reblog" := by
      rw [hre, hr]
      rfl
    have hno : classifyType p ≠ "original" := by rw [hty]; decide
    exact ⟨by simp [hty], by simp, by simp, by simp [hno]⟩

/-- C5 witness: applying the invariant to a concrete reblog post. -/
theorem crossref_population_amended_witness :
    ((process_post clean0 resolve0
        ⟨5, "", "https://a.ex/5", some ⟨7, "bob", "Bob", "https://b.ex/bob", "2024", "hi", []⟩⟩).reblogged_from.isSome = true
      ↔ (process_post clean0 resolve0
        ⟨5, "", "https://a.ex/5", some ⟨7, "bob", "Bob", "https://b.ex/bob", "2024", "hi", []⟩⟩).type = "reblog") := by
  exact (crossref_population_amended clean0 resolve0
    ⟨5, "", "https://a.ex/5", some ⟨7, "bob", "Bob", "https://b.ex/bob", "2024", "hi", []⟩⟩).1

/-! ## C6 — favorite resolution fallback -/

/-- C6 (counterexample): on a failed favorite resolution the substituted
placeholder text is the literal `Action non disponible` (line 448), not
the `<unavailable>` stated by the claim; the placeholder's list fields
are empty as claimed. -/
theorem favorite_placeholder_text_cex :
    (process_post clean0 resolve0 pFavFail).content.text = "Action non disponible"
    ∧ "Action non disponible" ≠ "<unavailable>"
    ∧ (process_post clean0 resolve0 pFavFail).content.hashtags = []
    ∧ (process_post clean0 resolve0 pFavFail).content.mentions = []
    ∧ (process_post clean0 resolve0 pFavFail).content.urls = [] := by
  refine ⟨by decide, by decide, by decide, by decide, by decide⟩

/-- C6 (amended): for every post classified `favorite`, when resolving
the original status fails (URL parse failure or remote lookup failure),
the content is set to the fixed placeholder body
`{text: "Action non disponible", hashtags: [], mentions: [], urls: []}`
and the post record is still produced with its own id and type. -/
theorem favorite_placeholder_amended (clean : String → Content)
    (resolve : String → Option Status) (p : RawPost)
    (hf : classifyType p = "favorite")
    (hfail : Option.bind (parse_favorite_source_id p.url) resolve = none) :
    (process_post clean resolve p).content = placeholder_content
    ∧ (process_post clean resolve p).id = p.id
    ∧ (process_post clean resolve p).type = classifyType p := by
  have hr : p.reblog = none := by
    have := (classify_fav_iff p).mp hf
    rcases hrr : p.reblog with _ | rb
    · rfl
    · rw [hrr] at this
      simp at this
  unfold process_post
  rw [hr]
  dsimp only
  rw [if_pos hf]
  rcases hp : parse_favorite_source_id p.url with _ | sid
  · exact ⟨rfl, rfl, rfl⟩
  · rw [hp, Option.some_bind] at hfail
    dsimp only
    rw [hfail]
    exact ⟨rfl, rfl, rfl⟩

/-- C6 witness: the amended fallback on the concrete failing favorite. -/
theorem favorite_placeholder_amended_witness :
    classifyType pFavFail = "favorite"
    ∧ Option.bind (parse_favorite_source_id pFavFail.url) resolve0 = none
    ∧ (process_post clean0 resolve0 pFavFail).content = placeholder_content
    ∧ (process_post clean0 resolve0 pFavFail).id = pFavFail.id
    ∧ (process_post clean0 resolve0 pFavFail).type = classifyType pFavFail := by
  have h := favorite_placeholder_amended clean0 resolve0 pFavFail (by decide) (by decide)
  exact ⟨by decide, by decide, h.1, h.2.1, h.2.2⟩

/-! ## Helper lemmas about `lastElem?` and the collector steps -/

lemma lastElem?_cons_cons (x y : Nat) (t : List Nat) :
    lastElem? (x :: y :: t) = lastElem? (y :: t) := rfl

lemma lastElem?_mem : ∀ (l : List Nat) (c : Nat), lastElem? l = some c → c ∈ l
  | [], _, h => by simp [lastElem?] at h
  | [x], c, h => by
    simp [lastElem?] at h
    simp [h]
  | x :: y :: t, c, h => by
    rw [lastElem?_cons_cons] at h
    exact List.mem_cons_of_mem x (lastElem?_mem (y :: t) c h)

lemma le_lastElem?_of_pairwise : ∀ (l : List Nat), List.Pairwise (· > ·) l →
    ∀ c, lastElem? l = some c → ∀ x ∈ l, c ≤ x
  | [], _, c, h => by simp [lastElem?] at h
  | [a], _, c, h => by
    simp [lastElem?] at h
    intro x hx
    rw [List.mem_singleton] at hx
    omega
  | a :: b :: t, hp, c, h => by
    rw [lastElem?_cons_cons] at h
    have hpc := List.pairwise_cons.mp hp
    have ih := le_lastElem?_of_pairwise (b :: t) hpc.2 c h
    intro x hx
    rcases List.mem_cons.mp hx with hxa | hx'
    · have hc : c ∈ b :: t := lastElem?_mem _ _ h
      have := hpc.1 c hc
      omega
    · exact ih x hx'

lemma lastElem?_append : ∀ (l₁ l₂ : List Nat), l₂ ≠ [] →
    lastElem? (l₁ ++ l₂) = lastElem? l₂
  | [], _, _ => rfl
  | a :: t, l₂, h => by
    have ih := lastElem?_append t l₂ h
    have hne : t ++ l₂ ≠ [] := by simp [h]
    rcases hq : t ++ l₂ with _ | ⟨y, r⟩
    · exact absurd hq hne
    · rw [List.cons_append, hq, lastElem?_cons_cons, ← hq, ih]

/-- One loop step of `get_all_posts` on a raised non-rate-limit error:
the exception propagates, losing the accumulated items. -/
lemma postsRunAux_transport (fetch : Nat → Option Nat → FetchR) (fuel : Nat)
    (s : PState) (h : fetch s.calls s.maxId = .transportError) :
    postsRunAux fetch (fuel + 1) s = .errored := by
  simp [postsRunAux, h]

/-- One loop step of `get_all_posts` on `MastodonRatelimitError`: sleep
`reset_in` and retry with cursor and accumulated items unchanged. -/
lemma postsRunAux_ratelimited (fetch : Nat → Option Nat → FetchR) (fuel : Nat)
    (s : PState) (d : Nat) (h : fetch s.calls s.maxId = .rateLimited d) :
    postsRunAux fetch (fuel + 1) s
      = postsRunAux fetch fuel ⟨s.maxId, s.acc, s.waits ++ [d], s.calls + 1⟩ := by
  simp [postsRunAux, h]

/-- One loop step of `get_all_posts` on an empty page: break and return. -/
lemma postsRunAux_ok_empty (fetch : Nat → Option Nat → FetchR) (fuel : Nat)
    (s : PState) (h : fetch s.calls s.maxId = .ok []) :
    postsRunAux fetch (fuel + 1) s = .ok s.acc s.waits := by
  simp [postsRunAux, h]

/-- One loop step of `get_all_posts` on a page with no unseen ids:
break and return without appending anything. -/
lemma postsRunAux_ok_nonew (fetch : Nat → Option Nat → FetchR) (fuel : Nat)
    (s : PState) (batch : List Nat) (h : fetch s.calls s.maxId = .ok batch)
    (hb : batch ≠ []) (hnew : batch.filter (fun x => !(s.acc.contains x)) = []) :
    postsRunAux fetch (fuel + 1) s = .ok s.acc s.waits := by
  simp only [postsRunAux, h]
  rw [if_neg hb, if_pos hnew]

/-- One loop step of `get_all_posts` on a page with unseen ids: append
them, move the cursor to the page's last id, continue. -/
lemma postsRunAux_ok_new (fetch : Nat → Option Nat → FetchR) (fuel : Nat)
    (s : PState) (batch : List Nat) (h : fetch s.calls s.maxId = .ok batch)
    (hb : batch ≠ []) (hnew : batch.filter (fun x => !(s.acc.contains x)) ≠ []) :
    postsRunAux fetch (fuel + 1) s
      = postsRunAux fetch fuel
          ⟨nextMaxId batch, s.acc ++ batch.filter (fun x => !(s.acc.contains x)),
            s.waits, s.calls + 1⟩ := by
  simp only [postsRunAux, h]
  rw [if_neg hb, if_neg hnew]

/-- One loop step of `get_followers_or_following_direct` on a non-429
request failure: break and return the partial list. -/
lemma ffRunAux_break (fetch : Nat → Option Nat → FFetchR) (T fuel : Nat)
    (s : FState) (st ra : Nat) (h : fetch s.calls s.cursor = .httpErr st ra)
    (hne : st ≠ 429) :
    ffRunAux fetch T (fuel + 1) s = some (s.acc, s.waits) := by
  simp [ffRunAux, h, hne]

/-- One loop step of `get_followers_or_following_direct` on HTTP 429:
sleep `Retry-After` and retry with params and accumulated items unchanged. -/
lemma ffRunAux_429 (fetch : Nat → Option Nat → FFetchR) (T fuel : Nat)
    (s : FState) (ra : Nat) (h : fetch s.calls s.cursor = .httpErr 429 ra) :
    ffRunAux fetch T (fuel + 1) s
      = ffRunAux fetch T fuel ⟨s.cursor, s.acc, s.waits ++ [ra], s.calls + 1⟩ := by
  simp [ffRunAux, h]

lemma filter_keep_nil (l : List Nat) :
    l.filter (fun x => !((([] : List Nat)).contains x)) = l := by
  induction l with
  | nil => rfl
  | cons a t ih => simp [List.filter_cons, ih]

/-! ## C3 — behaviour on transient transport failures -/

/-- C3 (counterexample): in the posts loop, after one successful page
(`[5, 4]`), a non-rate-limit transport failure makes the whole collection
propagate the error (`get_all_posts` catches only
`MastodonRatelimitError`), discarding the items already collected instead
of returning them. -/
theorem posts_loop_error_discards_progress_cex :
    postsRun c3fetch 3 = RunRes.errored
    ∧ RunRes.errored ≠ RunRes.ok [5, 4] [] := by
  refine ⟨by decide, by decide⟩

/-- C3 (amended): in the followers/following loop a non-429 request
failure breaks the loop and returns the items collected so far; in the
posts loop only the rate-limit error is handled, and any other transport
failure propagates out of the collector, losing the collected items. -/
theorem transport_error_partial_results_amended :
    (∀ (fetch : Nat → Option Nat → FetchR) (fuel : Nat) (s : PState),
        fetch s.calls s.maxId = FetchR.transportError →
        postsRunAux fetch (fuel + 1) s = RunRes.errored)
    ∧ (∀ (fetch : Nat → Option Nat → FFetchR) (T fuel : Nat) (s : FState) (st ra : Nat),
        fetch s.calls s.cursor = FFetchR.httpErr st ra → st ≠ 429 →
        ffRunAux fetch T (fuel + 1) s = some (s.acc, s.waits)) :=
  ⟨fun fetch fuel s h => postsRunAux_transport fetch fuel s h,
   fun fetch T fuel s st ra h hne => ffRunAux_break fetch T fuel s st ra h hne⟩

/-- C3 witness: the amended behaviour at concrete failing fetches. -/
theorem transport_error_partial_results_amended_witness :
    ((fun (_ : Nat) (_ : Option Nat) => FetchR.transportError) 0 none = FetchR.transportError)
    ∧ postsRunAux (fun _ _ => FetchR.transportError) 1 ⟨none, [1], [], 0⟩ = RunRes.errored
    ∧ (500 : Nat) ≠ 429
    ∧ ffRunAux (fun _ _ => FFetchR.httpErr 500 60) 7 1 ⟨none, [2], [], 0⟩ = some ([2], []) :=
  ⟨rfl,
   transport_error_partial_results_amended.1 (fun _ _ => FetchR.transportError) 0 ⟨none, [1], [], 0⟩ rfl,
   by decide,
   transport_error_partial_results_amended.2 (fun _ _ => FFetchR.httpErr 500 60) 7 0 ⟨none, [2], [], 0⟩ 500 60 rfl (by decide)⟩

/-! ## C7 — posts pagination cursor -/

/-- C7 (counterexample): the cursor passed to the next request is
`batch[-1].id`, the *last* id of the page (line 317), not the minimum:
for the page `[3, 5]` the next cursor is `5` although the page also
contains the smaller id `3`. -/
theorem next_cursor_not_minimum_cex :
    nextMaxId [3, 5] = some 5 ∧ (3 : Nat) ∈ [3, 5] ∧ 3 < 5 := by
  refine ⟨by decide, by decide, by decide⟩

/-- C7 (amended): the next-request cursor is the last id of the current
page; when the page is sorted newest-first (strictly descending ids, the
order the remote API serves), that last id is the minimum id seen in the
page. -/
theorem next_cursor_minimum_amended (batch : List Nat) (c : Nat)
    (hs : List.Pairwise (· > ·) batch) (h : nextMaxId batch = some c) :
    c ∈ batch ∧ ∀ x ∈ batch, c ≤ x :=
  ⟨lastElem?_mem batch c h, le_lastElem?_of_pairwise batch hs c h⟩

/-- C7 witness: on the descending page `[5, 3, 1]` the cursor `1` is a
member of the page and a lower bound of it. -/
theorem next_cursor_minimum_amended_witness :
    List.Pairwise (· > ·) [5, 3, 1] ∧ nextMaxId [5, 3, 1] = some 1
    ∧ (1 : Nat) ∈ [5, 3, 1] ∧ 1 ≤ 5 :=
  ⟨by decide, by decide,
   (next_cursor_minimum_amended [5, 3, 1] 1 (by decide) (by decide)).1,
   (next_cursor_minimum_amended [5, 3, 1] 1 (by decide) (by decide)).2 5 (by decide)⟩

/-! ## C8 — rate-limit backoff -/

/-- C8: on a rate-limit signal both collection loops sleep the signalled
duration (`reset_in` / `Retry-After`) and retry at the same cursor with
the collected items intact — the rate limit is never surfaced as a
failure — and a posts fetch source that is rate-limited with delay `D` on
the first call and succeeds on the second yields the successful page's
data with exactly the single wait `D` recorded. -/
theorem rate_limit_backoff_resumes :
    (∀ (fetch : Nat → Option Nat → FetchR) (fuel : Nat) (s : PState) (d : Nat),
        fetch s.calls s.maxId = FetchR.rateLimited d →
        postsRunAux fetch (fuel + 1) s
          = postsRunAux fetch fuel ⟨s.maxId, s.acc, s.waits ++ [d], s.calls + 1⟩)
    ∧ (∀ (fetch : Nat → Option Nat → FFetchR) (T fuel : Nat) (s : FState) (ra : Nat),
        fetch s.calls s.cursor = FFetchR.httpErr 429 ra →
        ffRunAux fetch T (fuel + 1) s
          = ffRunAux fetch T fuel ⟨s.cursor, s.acc, s.waits ++ [ra], s.calls + 1⟩)
    ∧ (∀ (D : Nat) (page : List Nat), page ≠ [] →
        postsRun (c8fetch D page) 3 = RunRes.ok page [D]) := by
  refine ⟨postsRunAux_ratelimited, ffRunAux_429, ?_⟩
  intro D page hp
  have hnew : page.filter (fun x => !((([] : List Nat)).contains x)) = page :=
    filter_keep_nil page
  have h1 : postsRun (c8fetch D page) 3
      = postsRunAux (c8fetch D page) 2 ⟨none, [], [D], 1⟩ := by
    have h := postsRunAux_ratelimited (c8fetch D page) 2 ⟨none, [], [], 0⟩ D rfl
    simpa [postsRun] using h
  have h2 : postsRunAux (c8fetch D page) 2 ⟨none, [], [D], 1⟩
      = postsRunAux (c8fetch D page) 1 ⟨nextMaxId page, page, [D], 2⟩ := by
    have h := postsRunAux_ok_new (c8fetch D page) 1 ⟨none, [], [D], 1⟩ page rfl hp
      (by rw [hnew]; exact hp)
    rw [h, hnew]
    simp
  have h3 : postsRunAux (c8fetch D page) 1 ⟨nextMaxId page, page, [D], 2⟩
      = RunRes.ok page [D] :=
    postsRunAux_ok_empty (c8fetch D page) 0 ⟨nextMaxId page, page, [D], 2⟩ rfl
  exact h1.trans (h2.trans h3)

/-- C8 witness: the backoff behaviour at concrete schedules. -/
theorem rate_limit_backoff_resumes_witness :
    ((fun (_ : Nat) (_ : Option Nat) => FetchR.rateLimited 30) 0 none = FetchR.rateLimited 30)
    ∧ postsRunAux (fun _ _ => FetchR.rateLimited 30) 1 ⟨some 9, [7], [], 0⟩
        = postsRunAux (fun _ _ => FetchR.rateLimited 30) 0 ⟨some 9, [7], [30], 1⟩
    ∧ ffRunAux (fun _ _ => FFetchR.httpErr 429 45) 7 1 ⟨some 2, [3], [], 0⟩
        = ffRunAux (fun _ _ => FFetchR.httpErr 429 45) 7 0 ⟨some 2, [3], [45], 1⟩
    ∧ ([9, 8] : List Nat) ≠ []
    ∧ postsRun (c8fetch 60 [9, 8]) 3 = RunRes.ok [9, 8] [60] :=
  ⟨rfl,
   rate_limit_backoff_resumes.1 (fun _ _ => FetchR.rateLimited 30) 0 ⟨some 9, [7], [], 0⟩ 30 rfl,
   rate_limit_backoff_resumes.2.1 (fun _ _ => FFetchR.httpErr 429 45) 7 0 ⟨some 2, [3], [], 0⟩ 45 rfl,
   by decide,
   rate_limit_backoff_resumes.2.2 60 [9, 8] (by decide)⟩

/-! ## Helper lemmas for complete pagination (C4) -/

lemma lastElem?_isSome : ∀ (l : List Nat), l ≠ [] → ∃ c, lastElem? l = some c
  | [], h => absurd rfl h
  | [x], _ => ⟨x, rfl⟩
  | _ :: y :: t, _ => by
    rw [lastElem?_cons_cons]
    exact lastElem?_isSome (y :: t) (by simp)

/-- Ids already collected never pass the duplicate filter's complement:
a batch disjoint from the accumulator is kept whole. -/
lemma filter_new_of_disjoint (acc batch : List Nat)
    (hd : ∀ x ∈ batch, x ∉ acc) :
    batch.filter (fun x => !(acc.contains x)) = batch := by
  rw [List.filter_eq_self]
  intro x hx
  simpa [List.contains] using hd x hx

/-- In a strictly descending list split as `a ++ b`, filtering for ids
below the last element of `a` yields exactly `b`. -/
lemma filter_lt_last (a b : List Nat) (c : Nat)
    (hp : List.Pairwise (· > ·) (a ++ b))
    (hc : lastElem? a = some c) :
    (a ++ b).filter (fun x => decide (x < c)) = b := by
  rw [List.filter_append]
  have hpa : List.Pairwise (· > ·) a := (List.pairwise_append.mp hp).1
  have hab := (List.pairwise_append.mp hp).2.2
  have h1 : a.filter (fun x => decide (x < c)) = [] := by
    rw [List.filter_eq_nil_iff]
    intro x hx
    have := le_lastElem?_of_pairwise a hpa c hc x hx
    simp
    omega
  have h2 : b.filter (fun x => decide (x < c)) = b := by
    rw [List.filter_eq_self]
    intro x hx
    have hca : c ∈ a := lastElem?_mem a c hc
    have := hab c hca x hx
    simp
    omega
  rw [h1, h2, List.nil_append]

/-- Complete pagination of the posts loop over a strictly descending id
universe served in pages of `P`: collection returns the whole universe
with the rate-limit wait list untouched. -/
lemma posts_collect_aux (u : List Nat) (P : Nat) (hP : 0 < P)
    (hs : List.Pairwise (· > ·) u) :
    ∀ fuel k (s : PState), s.acc = u.take k →
      pendingOf u s.maxId = u.drop k →
      u.length - k < fuel →
      postsRunAux (serveMaxId u P) fuel s = .ok u s.waits := by
  have hnd : u.Nodup := hs.imp (fun h => ne_of_gt h)
  intro fuel
  induction fuel with
  | zero => intro k s _ _ hf; omega
  | succ n ih =>
    intro k s hacc hpend hf
    have hserve : serveMaxId u P s.calls s.maxId = .ok ((u.drop k).take P) := by
      simp [serveMaxId, hpend]
    by_cases hb : (u.drop k).take P = []
    · have hdone : u.length ≤ k := by
        rcases List.take_eq_nil_iff.mp hb with h0 | hdk
        · omega
        · exact List.drop_eq_nil_iff.mp hdk
      rw [hb] at hserve
      rw [postsRunAux_ok_empty (serveMaxId u P) n s hserve, hacc,
        List.take_of_length_le hdone]
    · have hklen : k < u.length := by
        by_contra hk
        push_neg at hk
        rw [List.drop_eq_nil_iff.mpr hk] at hb
        simp at hb
      have hsub : ∀ x ∈ (u.drop k).take P, x ∈ u.drop k :=
        fun x hx => List.take_subset _ _ hx
      have hdisj : ∀ x ∈ (u.drop k).take P, x ∉ s.acc := by
        intro x hx
        rw [hacc]
        intro hmem
        have hnd' := hnd
        rw [← List.take_append_drop k u] at hnd'
        exact (List.nodup_append.mp hnd').2.2 hmem (hsub x hx)
      have hfilter := filter_new_of_disjoint s.acc ((u.drop k).take P) hdisj
      rw [postsRunAux_ok_new (serveMaxId u P) n s ((u.drop k).take P) hserve hb
        (by rw [hfilter]; exact hb), hfilter]
      have hacc' : s.acc ++ (u.drop k).take P = u.take (k + P) := by
        rw [hacc, List.take_add]
      obtain ⟨c, hc⟩ := lastElem?_isSome ((u.drop k).take P) hb
      have hcl : lastElem? (u.take (k + P)) = some c := by
        rw [List.take_add, lastElem?_append _ _ hb]
        exact hc
      have hpend' : pendingOf u (nextMaxId ((u.drop k).take P)) = u.drop (k + P) := by
        show pendingOf u (lastElem? ((u.drop k).take P)) = u.drop (k + P)
        rw [hc]
        show u.filter (fun x => decide (x < c)) = u.drop (k + P)
        conv_lhs => rw [← List.take_append_drop (k + P) u]
        rw [filter_lt_last (u.take (k + P)) (u.drop (k + P)) c
          (by rw [List.take_append_drop]; exact hs) hcl]
      exact ih (k + P) ⟨nextMaxId ((u.drop k).take P), s.acc ++ (u.drop k).take P,
        s.waits, s.calls + 1⟩ hacc' hpend' (by omega)

/-- One loop step of `get_followers_or_following_direct` on a served
page, with the page still symbolic. -/
lemma ffRunAux_ok (fetch : Nat → Option Nat → FFetchR) (T fuel : Nat) (s : FState)
    (batch : List Nat) (next : Option Nat)
    (h : fetch s.calls s.cursor = .ok batch next) :
    ffRunAux fetch T (fuel + 1) s =
      (if batch = [] then some (s.acc, s.waits)
       else
         let newItems := batch.filter (fun x => !(s.acc.contains x))
         if newItems = [] then some (s.acc, s.waits)
         else
           let acc' := s.acc ++ newItems
           match next with
           | none => some (acc', s.waits)
           | some c =>
             if T ≤ acc'.length then some (acc', s.waits)
             else ffRunAux fetch T fuel ⟨some c, acc', s.waits, s.calls + 1⟩) := by
  simp only [ffRunAux, h]
  cases next <;> rfl

/-- Complete pagination of the followers/following loop over a
duplicate-free id universe served in pages of `P` with link-header
cursors: collection returns the whole universe. -/
lemma ff_collect_aux (u : List Nat) (P : Nat) (hP : 0 < P) (hnd : u.Nodup) :
    ∀ fuel (s : FState), s.acc = u.take (s.cursor.getD 0) →
      u.length - s.cursor.getD 0 < fuel →
      ffRunAux (ffServe u P) u.length fuel s = some (u, s.waits) := by
  intro fuel
  induction fuel with
  | zero => intro s _ hf; omega
  | succ n ih =>
    intro s hacc hf
    have hserve : ffServe u P s.calls s.cursor
        = .ok ((u.drop (s.cursor.getD 0)).take P)
            (if s.cursor.getD 0 + P < u.length then some (s.cursor.getD 0 + P) else none) :=
      rfl
    by_cases hb : (u.drop (s.cursor.getD 0)).take P = []
    · have hdone : u.length ≤ s.cursor.getD 0 := by
        rcases List.take_eq_nil_iff.mp hb with h0 | hdk
        · omega
        · exact List.drop_eq_nil_iff.mp hdk
      rw [ffRunAux_ok (ffServe u P) u.length n s _ _ hserve, if_pos hb, hacc,
        List.take_of_length_le hdone]
    · have hklen : s.cursor.getD 0 < u.length := by
        by_contra hk
        push_neg at hk
        rw [List.drop_eq_nil_iff.mpr hk] at hb
        simp at hb
      have hdisj : ∀ x ∈ (u.drop (s.cursor.getD 0)).take P, x ∉ s.acc := by
        intro x hx
        rw [hacc]
        intro hmem
        have hnd' := hnd
        rw [← List.take_append_drop (s.cursor.getD 0) u] at hnd'
        exact (List.nodup_append.mp hnd').2.2 hmem (List.take_subset _ _ hx)
      have hfilter := filter_new_of_disjoint s.acc _ hdisj
      have hacc' : s.acc ++ (u.drop (s.cursor.getD 0)).take P
          = u.take (s.cursor.getD 0 + P) := by
        rw [hacc, List.take_add]
      by_cases hlt : s.cursor.getD 0 + P < u.length
      · have hserve2 : ffServe u P s.calls s.cursor
            = .ok ((u.drop (s.cursor.getD 0)).take P) (some (s.cursor.getD 0 + P)) := by
          rw [hserve, if_pos hlt]
        rw [ffRunAux_ok (ffServe u P) u.length n s _ _ hserve2, if_neg hb]
        dsimp only
        rw [hfilter, if_neg hb]
        have hlen : (s.acc ++ (u.drop (s.cursor.getD 0)).take P).length
            = s.cursor.getD 0 + P := by
          rw [hacc', List.length_take]
          omega
        rw [if_neg (by rw [hlen]; omega)]
        exact ih ⟨some (s.cursor.getD 0 + P), s.acc ++ (u.drop (s.cursor.getD 0)).take P,
          s.waits, s.calls + 1⟩ hacc' (by simp only [Option.getD_some]; omega)
      · have hserve2 : ffServe u P s.calls s.cursor
            = .ok ((u.drop (s.cursor.getD 0)).take P) none := by
          rw [hserve, if_neg hlt]
        rw [ffRunAux_ok (ffServe u P) u.length n s _ _ hserve2, if_neg hb]
        dsimp only
        rw [hfilter, if_neg hb, hacc', List.take_of_length_le (by omega)]

/-! ## C4 — pagination termination, completeness, and dedup -/

/-- C4: over a universe of `N` unique ids served in pages of size `P`
(posts loop: max-id cursor over a strictly descending id universe;
followers/following loop: link-header cursor over any duplicate-free
universe), collection terminates within `N + 1` iterations and yields
exactly the `N` ids in order with no duplicates; and whenever a fetched
page repeats only already-collected ids, the posts loop stops without
appending anything. -/
theorem pagination_complete_and_dedup :
    (∀ (u : List Nat) (P fuel : Nat), List.Pairwise (· > ·) u → 0 < P →
        u.length < fuel → postsRun (serveMaxId u P) fuel = .ok u [])
    ∧ (∀ (fetch : Nat → Option Nat → FetchR) (fuel : Nat) (s : PState) (batch : List Nat),
        fetch s.calls s.maxId = .ok batch → batch ≠ [] → (∀ x ∈ batch, x ∈ s.acc) →
        postsRunAux fetch (fuel + 1) s = .ok s.acc s.waits)
    ∧ (∀ (u : List Nat) (P fuel : Nat), u.Nodup → 0 < P →
        u.length < fuel → ffRun (ffServe u P) u.length fuel = some (u, [])) := by
  refine ⟨?_, ?_, ?_⟩
  · intro u P fuel hs hP hf
    exact posts_collect_aux u P hP hs fuel 0 ⟨none, [], [], 0⟩ rfl (by simp [pendingOf]) (by omega)
  · intro fetch fuel s batch h hb hmem
    refine postsRunAux_ok_nonew fetch fuel s batch h hb ?_
    rw [List.filter_eq_nil_iff]
    intro x hx
    simpa [List.contains] using hmem x hx
  · intro u P fuel hnd hP hf
    exact ff_collect_aux u P hP hnd fuel ⟨none, [], [], 0⟩ rfl (by simpa using hf)

/-- C4 witness: a five-id descending universe in pages of two for the
posts loop; a repeated singleton page against an accumulator already
holding it; a three-id universe in pages of two for the followers loop. -/
theorem pagination_complete_and_dedup_witness :
    (List.Pairwise (· > ·) [9, 7, 4, 2, 1] ∧ 0 < 2 ∧ [9, 7, 4, 2, 1].length < 6
      ∧ postsRun (serveMaxId [9, 7, 4, 2, 1] 2) 6 = .ok [9, 7, 4, 2, 1] [])
    ∧ (postsRunAux (fun _ _ => FetchR.ok [3]) 1 ⟨some 3, [3], [], 0⟩ = .ok [3] [])
    ∧ ([1, 2, 3] : List Nat).Nodup ∧ ffRun (ffServe [1, 2, 3] 2) 3 4 = some ([1, 2, 3], []) :=
  ⟨⟨by decide, by decide, by decide,
    pagination_complete_and_dedup.1 [9, 7, 4, 2, 1] 2 6 (by decide) (by decide) (by decide)⟩,
   pagination_complete_and_dedup.2.1 (fun _ _ => FetchR.ok [3]) 0 ⟨some 3, [3], [], 0⟩ [3]
     rfl (by decide) (by decide),
   by decide,
   pagination_complete_and_dedup.2.2 [1, 2, 3] 2 4 (by decide) (by decide) (by decide)⟩

/-- C2 witness: the amended classification rule at a concrete favorite
activity record. -/
theorem classify_rule_amended_witness :
    (classifyType ⟨1, "", "https://a.ex/9/activity", none⟩ = "reblog"
      ↔ (⟨1, "", "https://a.ex/9/activity", none⟩ : RawPost).reblog.isSome = true)
    ∧ (classifyType ⟨1, "", "https://a.ex/9/activity", none⟩ = "favorite"
      ↔ ((⟨1, "", "https://a.ex/9/activity", none⟩ : RawPost).reblog = none
          ∧ (⟨1, "", "https://a.ex/9/activity", none⟩ : RawPost).content = ""
          ∧ strContains "https://a.ex/9/activity" "/activity" = true))
    ∧ (classifyType ⟨1, "", "https://a.ex/9/activity", none⟩ = "original"
      ↔ ((⟨1, "", "https://a.ex/9/activity", none⟩ : RawPost).reblog = none
          ∧ ¬((⟨1, "", "https://a.ex/9/activity", none⟩ : RawPost).content = ""
              ∧ strContains "https://a.ex/9/activity" "/activity" = true))) :=
  classify_rule_amended ⟨1, "", "https://a.ex/9/activity", none⟩
